import Mathlib

/-!
Verification of the `mstransfer` transfer-coordination core: a shallow
embedding of the server-side transfer registry and upload endpoint
(`src/mstransfer/server/state.py`, `src/mstransfer/server/routes.py`) and
of the client-side sender (`src/mstransfer/client/sender.py`), together
with theorems settling the specification's claims about them.

Machine conventions: byte strings are `List Nat`; the filesystem is an
association list from path strings to contents; wall-clock and monotonic
instants are natural numbers; Python `dict` assignment is modelled by
`dictInsert` (replace in place, else append).
-/

namespace MSTransfer

/-- `TransferState` from `server/models.py`: the five states of a transfer. -/
inductive TransferState where
  | receiving
  | received
  | decompressing
  | done
  | error
deriving DecidableEq, Repr

/-- `TransferRecord` from `server/models.py`.  `created_at` is the wall-clock
instant (`datetime.now()`) supplied at creation; `error` is `none` by default. -/
structure TransferRecord where
  transfer_id : String
  filename : String
  state : TransferState := TransferState.receiving
  bytes_received : Nat := 0
  stored_as : String := ""
  error : Option String := none
  created_at : Nat := 0
deriving DecidableEq, Repr

/-- The keyword-argument bag passed to `TransferRegistry.update`: each field
is `some v` exactly when the corresponding `kwargs` key is present. -/
structure RecordPatch where
  state : Option TransferState := none
  bytes_received : Option Nat := none
  stored_as : Option String := none
  error : Option (Option String) := none
deriving DecidableEq, Repr

/-- `setattr` of every present kwarg onto the record, as the `for key, value
in kwargs.items()` loop of `TransferRegistry.update` does. -/
def applyPatch (r : TransferRecord) (p : RecordPatch) : TransferRecord :=
  { r with
    state := p.state.getD r.state
    bytes_received := p.bytes_received.getD r.bytes_received
    stored_as := p.stored_as.getD r.stored_as
    error := p.error.getD r.error }

/-- Python `dict` assignment `m[k] = v`: replace the binding in place if the
key exists, otherwise append it. -/
def dictInsert (m : List (String × TransferRecord)) (k : String)
    (v : TransferRecord) : List (String × TransferRecord) :=
  if m.any (fun p => p.1 = k) then
    m.map (fun p => if p.1 = k then (k, v) else p)
  else
    m ++ [(k, v)]

/-- `TransferRegistry` from `server/state.py`: the in-memory map from
transfer id to record (the mutex is irrelevant in this sequential model). -/
structure TransferRegistry where
  records : List (String × TransferRecord)
deriving DecidableEq, Repr

/-- `TransferRegistry.get`: `self._records.get(transfer_id)`. -/
def TransferRegistry.get (reg : TransferRegistry) (transfer_id : String) :
    Option TransferRecord :=
  (reg.records.find? (fun p => p.1 = transfer_id)).map (fun p => p.2)

/-- `TransferRegistry.create`: builds a fresh record and assigns
`self._records[transfer_id] = record` unconditionally.  `now` stands for
`datetime.now()` taken by the record's `created_at` default factory. -/
def TransferRegistry.create (reg : TransferRegistry) (transfer_id : String)
    (filename : String) (now : Nat) : TransferRecord × TransferRegistry :=
  let record : TransferRecord :=
    { transfer_id := transfer_id, filename := filename, created_at := now }
  (record, ⟨dictInsert reg.records transfer_id record⟩)

/-- `TransferRegistry.update`: looks the record up and, when present,
`setattr`s every given field; returns `none` when the id is unknown. -/
def TransferRegistry.update (reg : TransferRegistry) (transfer_id : String)
    (p : RecordPatch) : Option TransferRecord × TransferRegistry :=
  match reg.get transfer_id with
  | none => (none, reg)
  | some r =>
      let r' := applyPatch r p
      (some r', ⟨dictInsert reg.records transfer_id r'⟩)

/-! ### POSIX path handling, as `pathlib.PurePosixPath` computes it

`routes.py` derives the staging filename via `Path(original_filename).stem`;
`sender.py` sends `file_path.name`.  We model `name`, `suffix` and `stem`
over the raw character list. -/

/-- Split a character list on `/`, keeping empty components (like
`str.split("/")`); pathlib then discards empty and `.` components. -/
def splitSlash : List Char → List (List Char)
  | [] => [[]]
  | c :: rest =>
      if c = '/' then [] :: splitSlash rest
      else
        match splitSlash rest with
        | [] => [[c]]
        | s :: ss => (c :: s) :: ss

/-- pathlib keeps a parsed component iff it is neither empty nor `.`. -/
def keepComponent (c : List Char) : Bool := decide (c ≠ [] ∧ c ≠ ['.'])

/-- `PurePosixPath.name`: the last path component, with empty and `.`
components dropped during parsing; `""` when there is none (e.g. `/`, `.`). -/
def pathNameChars (cs : List Char) : List Char :=
  let comps := (splitSlash cs).filter keepComponent
  (comps.getLast?).getD []

/-- Index of the last occurrence of `c`, as Python `str.rfind` (but `none`
instead of `-1` when absent). -/
def rfindIdx (c : Char) : List Char → Option Nat
  | [] => none
  | a :: rest =>
      match rfindIdx c rest with
      | some i => some (i + 1)
      | none => if a = c then some 0 else none

/-- `PurePosixPath.stem`: `name[:i]` for `i = name.rfind('.')` when
`0 < i < len(name) - 1`, else the whole name. -/
def pathStemChars (cs : List Char) : List Char :=
  let name := pathNameChars cs
  match rfindIdx '.' name with
  | some i => if 0 < i ∧ i < name.length - 1 then name.take i else name
  | none => name

/-- `Path(s).name` as a string. -/
def pathName (s : String) : String := ⟨pathNameChars s.data⟩

/-- `Path(s).stem` as a string. -/
def pathStem (s : String) : String := ⟨pathStemChars s.data⟩

/-- The staging path of `routes.upload`:
`msz_path = output_dir / f"{stem}.msz"`. -/
def stagingPath (output_dir original_filename : String) : String :=
  output_dir ++ "/" ++ (pathStem original_filename ++ ".msz")

/-! ### Server filesystem and the upload endpoint (`server/routes.py`) -/

/-- The server-side filesystem: an association list from path to byte
contents.  `aiofiles.open(p, "wb")` truncates/creates, so a write replaces. -/
abbrev Fs := List (String × List Nat)

/-- Contents of the file at `p`, if it exists. -/
def fsRead (fs : Fs) (p : String) : Option (List Nat) :=
  (fs.find? (fun e => e.1 = p)).map (fun e => e.2)

/-- Write (create or truncate-and-replace) the file at `p`. -/
def fsWrite (fs : Fs) (p : String) (contents : List Nat) : Fs :=
  if fs.any (fun e => e.1 = p) then
    fs.map (fun e => if e.1 = p then (p, contents) else e)
  else
    fs ++ [(p, contents)]

/-- `os.remove(p)`. -/
def fsRemove (fs : Fs) (p : String) : Fs :=
  fs.filter (fun e => e.1 ≠ p)

/-- `UploadResponse` from `server/models.py`. -/
structure UploadResponse where
  transfer_id : String
  filename : String
  stored_as : String
  state : TransferState
  bytes_received : Nat
deriving DecidableEq, Repr

/-- Outcome of one call to the upload route: either an `HTTPException`
(status, detail) or a normal return (HTTP 200) carrying the response body. -/
inductive UploadOutcome where
  | httpError (status : Nat) (detail : String)
  | ok (resp : UploadResponse)
deriving DecidableEq, Repr

/-- The HTTP status of an upload outcome (FastAPI returns 200 on a normal
return of the handler). -/
def UploadOutcome.status : UploadOutcome → Nat
  | .httpError s _ => s
  | .ok _ => 200

/-- `update_every = 64  # throttle registry updates to reduce lock overhead` -/
def update_every : Nat := 64

/-- The `async for chunk in request.stream()` loop: writes each chunk,
counts bytes and chunks, and updates `bytes_received` in the registry every
`update_every` chunks.  Returns the byte total and registry after the loop
(the claims under verification only concern fully received bodies, so the
mid-stream I/O-error branch is not taken here). -/
def streamChunks (transfer_id : String) :
    List (List Nat) → Nat → Nat → TransferRegistry → Nat × TransferRegistry
  | [], bytes_received, _, reg => (bytes_received, reg)
  | chunk :: rest, bytes_received, chunk_count, reg =>
      let bytes_received := bytes_received + chunk.length
      let chunk_count := chunk_count + 1
      let reg :=
        if chunk_count % update_every = 0 then
          (reg.update transfer_id { bytes_received := some bytes_received }).2
        else reg
      streamChunks transfer_id rest bytes_received chunk_count reg

/-- Result of `POST /v1/upload`: the outcome plus the server state it
leaves behind. -/
structure UploadResult where
  outcome : UploadOutcome
  registry : TransferRegistry
  fs : Fs

/-- The `upload` handler of `server/routes.py`, for a request whose body is
fully received (list of chunks).  Parameters: server config `output_dir`
and `store_as`; `decompress` models the external `mscompress.MSZFile`
decompressor applied to the staging file's bytes (`none` = it raised);
`headers` are `X-Transfer-ID` and `X-Original-Filename` (absent = `none`);
`now` is the creation wall-clock instant. -/
def upload (output_dir store_as : String)
    (decompress : List Nat → Option (List Nat))
    (transfer_id_header original_filename_header : Option String)
    (body : List (List Nat)) (reg : TransferRegistry) (fs : Fs) (now : Nat) :
    UploadResult :=
  match transfer_id_header with
  | none => ⟨.httpError 400 "Missing X-Transfer-ID header", reg, fs⟩
  | some transfer_id =>
    if transfer_id = "" then
      ⟨.httpError 400 "Missing X-Transfer-ID header", reg, fs⟩
    else
      match original_filename_header with
      | none => ⟨.httpError 400 "Missing X-Original-Filename header", reg, fs⟩
      | some original_filename =>
        if original_filename = "" then
          ⟨.httpError 400 "Missing X-Original-Filename header", reg, fs⟩
        else
          let reg := (reg.create transfer_id original_filename now).2
          let stem := pathStem original_filename
          let msz_path := stagingPath output_dir original_filename
          let fs := fsWrite fs msz_path body.flatten
          let streamed := streamChunks transfer_id body 0 0 reg
          let bytes_received := streamed.1
          let reg := streamed.2
          let reg :=
            (reg.update transfer_id { bytes_received := some bytes_received }).2
          let reg :=
            (reg.update transfer_id { state := some .received }).2
          let stepped : TransferRegistry × Fs :=
            if store_as = "msz" then
              ((reg.update transfer_id
                { state := some .done
                  stored_as := some msz_path
                  bytes_received := some bytes_received }).2, fs)
            else if store_as = "mzml" then
              let reg := (reg.update transfer_id
                { state := some .decompressing }).2
              match decompress ((fsRead fs msz_path).getD []) with
              | some mzml_bytes =>
                  let mzml_path := output_dir ++ "/" ++ (stem ++ ".mzML")
                  let fs := fsWrite fs mzml_path mzml_bytes
                  let fs := fsRemove fs msz_path
                  ((reg.update transfer_id
                    { state := some .done
                      stored_as := some mzml_path
                      bytes_received := some bytes_received }).2, fs)
              | none =>
                  ((reg.update transfer_id
                    { state := some .error
                      error := some (some "decompression failed") }).2, fs)
            else (reg, fs)
          let reg := stepped.1
          let fs := stepped.2
          match reg.get transfer_id with
          | none =>
              ⟨.httpError 500
                "Unexpected error: transfer record missing after processing",
               reg, fs⟩
          | some final =>
              ⟨.ok { transfer_id := final.transfer_id
                     filename := final.filename
                     stored_as := final.stored_as
                     state := final.state
                     bytes_received := final.bytes_received }, reg, fs⟩

/-- `GET /v1/transfer/{id}/status` (`transfer_status` in `routes.py`):
the record snapshot, or a 404. -/
def transfer_status (reg : TransferRegistry) (transfer_id : String) :
    Option TransferRecord :=
  reg.get transfer_id

/-! ### Client-side status polling (`_poll_status` in `client/sender.py`) -/

/-- One iteration of the polling loop: `time` is `time.monotonic()` at the
loop check (request latency is treated as negligible, so the same instant
is used when the deadline is reset); `resp` is `some (state, bytes)` when
the status request returned 200, `none` otherwise. -/
structure PollObs where
  time : Nat
  resp : Option (TransferState × Nat)
deriving DecidableEq, Repr

/-- What a polling run produces: a terminal state, a `TimeoutError`, or —
an artifact of modelling the unbounded `while` loop on a finite observation
trace — the trace ran out while the loop would have continued. -/
inductive PollResult where
  | terminal (s : TransferState)
  | timeoutError
  | exhausted
deriving DecidableEq, Repr

/-- The `while time.monotonic() < deadline` loop of `_poll_status`:
`last_state`/`last_bytes` are only advanced (and the deadline only reset)
when a state change or a byte-count increase is detected. -/
def pollLoop (T : Nat) :
    List PollObs → Nat → Option TransferState → Nat → PollResult
  | [], _, _, _ => .exhausted
  | o :: rest, deadline, last_state, last_bytes =>
      if o.time < deadline then
        match o.resp with
        | none => pollLoop T rest deadline last_state last_bytes
        | some (s, b) =>
            if s = .done ∨ s = .error then .terminal s
            else if some s ≠ last_state ∨ b > last_bytes then
              pollLoop T rest (o.time + T) (some s) b
            else
              pollLoop T rest deadline last_state last_bytes
      else .timeoutError

/-- `_poll_status(base_url, transfer_id, timeout=T)` on an observation
trace: `t0` is `time.monotonic()` at entry, so the initial deadline is
`t0 + T`; `last_state` starts as `None` and `last_bytes` as `0`. -/
def poll_status (T t0 : Nat) (trace : List PollObs) : PollResult :=
  pollLoop T trace (t0 + T) none 0

/-- Modelled from the spec: the polling semantics as the claim words it —
return on a terminal observation; reset the deadline to `now + T` whenever
the state differs from the **last observed** state or the byte count
exceeds the **last observed** count (so the tracked pair advances on every
200 response); time out once a loop check happens at or after the deadline. -/
def claimPollLoop (T : Nat) :
    List PollObs → Nat → Option TransferState → Nat → PollResult
  | [], _, _, _ => .exhausted
  | o :: rest, deadline, last_state, last_bytes =>
      if o.time < deadline then
        match o.resp with
        | none => claimPollLoop T rest deadline last_state last_bytes
        | some (s, b) =>
            if s = .done ∨ s = .error then .terminal s
            else if some s ≠ last_state ∨ b > last_bytes then
              claimPollLoop T rest (o.time + T) (some s) b
            else
              claimPollLoop T rest deadline (some s) b
      else .timeoutError

/-- Modelled from the spec: `claimPollLoop` started like `poll_status`. -/
def claimPoll (T t0 : Nat) (trace : List PollObs) : PollResult :=
  claimPollLoop T trace (t0 + T) none 0

/-- The `bytes_received` values of the 200 responses in a trace, in order. -/
def obsBytes (trace : List PollObs) : List Nat :=
  trace.filterMap (fun o => o.resp.map (fun r => r.2))

/-- A list of naturals is non-decreasing (each element at most the next). -/
def nondecreasing : List Nat → Bool
  | [] => true
  | [_] => true
  | a :: b :: rest => decide (a ≤ b) && nondecreasing (b :: rest)

/-! ### Client input resolution (`resolve_inputs` in `client/sender.py`) -/

/-- `Path.suffix`: `name[i:]` for `i = name.rfind('.')` when
`0 < i < len(name) - 1`, else the empty string. -/
def pathSuffix (s : String) : String :=
  let name := pathNameChars s.data
  match rfindIdx '.' name with
  | some i => if 0 < i ∧ i < name.length - 1 then ⟨name.drop i⟩ else ""
  | none => ""

/-- `str.lower()` (ASCII suffices for the extension sets involved). -/
def strLower (s : String) : String := ⟨s.data.map Char.toLower⟩

/-- `VALID_EXTENSIONS = {".mzml", ".msz", ".mszx"}` from `client/sender.py`. -/
def VALID_EXTENSIONS : List String := [".mzml", ".msz", ".mszx"]

/-- One entry of the client-visible filesystem: a path and whether it is a
directory (otherwise it is a regular file). -/
structure ClientFsEntry where
  path : String
  is_dir : Bool
deriving DecidableEq, Repr

/-- The client-visible filesystem for `resolve_inputs`. -/
abbrev ClientFs := List ClientFsEntry

/-- `Path(p).is_file()`. -/
def ClientFs.isFile (cfs : ClientFs) (p : String) : Bool :=
  cfs.any (fun e => e.path = p ∧ e.is_dir = false)

/-- `Path(p).is_dir()`. -/
def ClientFs.isDir (cfs : ClientFs) (p : String) : Bool :=
  cfs.any (fun e => e.path = p ∧ e.is_dir = true)

/-- The directory part of a path: everything before the last `/`
(empty when there is no `/`). -/
def dirname (p : String) : String :=
  match rfindIdx '/' p.data with
  | some i => ⟨p.data.take i⟩
  | none => ""

/-- `fnmatch` of a `*<suffix>` glob pattern against an entry name: `*`
matches any (possibly empty) run, so the name must end with `suffix`.
The four patterns of `resolve_inputs` are all of this shape. -/
def fnmatchStar (suffix name : String) : Bool :=
  suffix.data.isSuffixOf name.data

/-- The glob-pattern suffixes `resolve_inputs` iterates over:
`for ext in ("*.mzML", "*.msz", "*.mzml", "*.MSZ")`.  Note `*.mszx` is
absent and the case variants are not exhaustive. -/
def GLOB_PATTERNS : List String := [".mzML", ".msz", ".mzml", ".MSZ"]

/-- `Path(d).glob("*" + suffix)`: entries (files or directories) directly
inside `d` whose name matches. -/
def globDir (cfs : ClientFs) (d suffix : String) : List String :=
  cfs.filterMap (fun e =>
    if dirname e.path = d ∧ fnmatchStar suffix (pathName e.path) = true then
      some e.path
    else none)

/-- `Path(d).rglob("*" + suffix)`: entries anywhere strictly below `d`
whose name matches. -/
def rglobDir (cfs : ClientFs) (d suffix : String) : List String :=
  cfs.filterMap (fun e =>
    if (d ++ "/").data.isPrefixOf e.path.data = true ∧
        fnmatchStar suffix (pathName e.path) = true then
      some e.path
    else none)

/-- `list(dict.fromkeys(result))`: deduplicate keeping first occurrences. -/
def dedupKeepFirstAux (seen : List String) : List String → List String
  | [] => []
  | a :: rest =>
      if seen.contains a then dedupKeepFirstAux seen rest
      else a :: dedupKeepFirstAux (a :: seen) rest

/-- `list(dict.fromkeys(result))` with no keys seen yet. -/
def dedupKeepFirst (l : List String) : List String := dedupKeepFirstAux [] l

/-- `sorted(set(result))`.  (Python compares `Path`s by their parts tuple;
this model sorts the path strings — the claims under verification concern
membership only, which is unaffected by the order chosen.) -/
def sortedSet (l : List String) : List String :=
  (l.mergeSort (fun a b => a ≤ b)).dedup

/-- The `for p in paths` loop body of `resolve_inputs`, threading the
`result` accumulator. -/
def resolveLoop (cfs : ClientFs) (recursive : Bool) :
    List String → List String → List String
  | [], result => result
  | p :: rest, result =>
      let result :=
        if cfs.isFile p then
          if VALID_EXTENSIONS.contains (strLower (pathSuffix p)) then
            result ++ [p]
          else result
        else if cfs.isDir p then
          dedupKeepFirst
            (GLOB_PATTERNS.foldl
              (fun acc suffix =>
                acc ++
                  (if recursive then rglobDir cfs p suffix
                   else globDir cfs p suffix))
              result)
        else result
      resolveLoop cfs recursive rest result

/-- `resolve_inputs(paths, recursive)`: raises `FileNotFoundError` when
nothing eligible was collected, else returns `sorted(set(result))`. -/
def resolve_inputs (cfs : ClientFs) (paths : List String)
    (recursive : Bool) : Except String (List String) :=
  let result := resolveLoop cfs recursive paths []
  if result = [] then
    .error "No valid .mzML or .msz files found in the given paths"
  else
    .ok (sortedSet result)

/-- The list a resolver outcome delivers (empty when it raised). -/
def resolvedFiles (r : Except String (List String)) : List String :=
  (r.toOption).getD []

/-! ### Client batch driver (`send_batch` in `client/sender.py`) -/

/-- `FileResult` from `client/sender.py`. -/
structure FileResult where
  filename : String
  response : Option UploadResponse := none
  error : Option String := none
deriving DecidableEq, Repr

/-- The `FileResult` built for input index `i` once its future completes:
`FileResult(filename=fpath.name, response=result)` on success,
`FileResult(filename=fpath.name, error=str(exc))` on an exception;
`none` when `i` is out of range (never reached for a completion order
that permutes the input indices). -/
def fileResultAt (file_paths : List String)
    (outcomes : List (Except String UploadResponse)) (i : Nat) :
    Option FileResult :=
  match file_paths[i]?, outcomes[i]? with
  | some fpath, some (.ok r) =>
      some { filename := pathName fpath, response := some r }
  | some fpath, some (.error e) =>
      some { filename := pathName fpath, error := some e }
  | _, _ => none

/-- `send_batch(file_paths, ..., parallel)`.  The network and thread pool
are abstracted: `outcomes` gives each index's `send_file` result (value or
raised exception message), and `completion_order` is the order in which
`as_completed` yields the futures — an arbitrary permutation of the input
indices, since workers finish in any order.  `ThreadPoolExecutor(max_workers=workers)`
raises `ValueError("max_workers must be greater than 0")` when
`workers = min(parallel, len(file_paths))` is not positive, which the code
does not catch. -/
def send_batch (file_paths : List String)
    (outcomes : List (Except String UploadResponse))
    (completion_order : List Nat) (parallel : Nat) :
    Except String (List FileResult) :=
  let workers := min parallel file_paths.length
  if workers = 0 then
    .error "max_workers must be greater than 0"
  else
    .ok (completion_order.filterMap (fileResultAt file_paths outcomes))

end MSTransfer

namespace MSTransfer

theorem find?_dictInsert (m : List (String × TransferRecord)) (k : String)
    (v : TransferRecord) :
    (dictInsert m k v).find? (fun p => p.1 = k) = some (k, v) := by
  induction m with
  | nil => simp [dictInsert]
  | cons p rest ih =>
    by_cases hpk : p.1 = k
    · simp [dictInsert, hpk]
    · by_cases hany : rest.any (fun q => q.1 = k)
      · simp only [dictInsert, List.any_cons, hany, Bool.or_true, if_pos,
          decide_eq_true_eq] at ih ⊢
        simp only [List.map_cons, if_neg hpk, List.find?]
        simpa [hpk] using ih
      · simp only [dictInsert, List.any_cons, hany, Bool.or_false,
          decide_eq_true_eq] at ih ⊢
        simp only [if_neg hpk, if_false] at ih ⊢
        simp only [List.cons_append, List.find?, decide_eq_true_eq]
        simpa [hpk] using ih

theorem get_dictInsert (m : List (String × TransferRecord)) (k : String)
    (v : TransferRecord) :
    TransferRegistry.get ⟨dictInsert m k v⟩ k = some v := by
  simp [TransferRegistry.get, find?_dictInsert]

end MSTransfer

namespace MSTransfer

theorem get_create (reg : TransferRegistry) (tid fn : String) (now : Nat) :
    ((reg.create tid fn now).2).get tid
      = some { transfer_id := tid, filename := fn, created_at := now } := by
  simp [TransferRegistry.create, TransferRegistry.get, find?_dictInsert]

theorem get_update_self (reg : TransferRegistry) (tid : String)
    (p : RecordPatch) :
    ((reg.update tid p).2).get tid
      = (reg.get tid).map (fun r => applyPatch r p) := by
  unfold TransferRegistry.update
  cases h : reg.get tid with
  | none => simp [h]
  | some r => simp [h, get_dictInsert]

theorem fst_update (reg : TransferRegistry) (tid : String) (p : RecordPatch) :
    (reg.update tid p).1 = (reg.get tid).map (fun r => applyPatch r p) := by
  unfold TransferRegistry.update
  cases h : reg.get tid <;> simp [h]

theorem streamChunks_fst (tid : String) (body : List (List Nat))
    (b c : Nat) (reg : TransferRegistry) :
    (streamChunks tid body b c reg).1 = b + (body.map List.length).sum := by
  induction body generalizing b c reg with
  | nil => simp [streamChunks]
  | cons chunk rest ih =>
    simp only [streamChunks, List.map_cons, List.sum_cons]
    rw [ih]
    omega

theorem get_streamChunks_shape (tid : String) (body : List (List Nat))
    (b c : Nat) (reg : TransferRegistry) :
    ∃ n, ((streamChunks tid body b c reg).2).get tid
      = (reg.get tid).map (fun r => { r with bytes_received := n }) := by
  induction body generalizing b c reg with
  | nil =>
    cases h : reg.get tid with
    | none => exact ⟨0, by simp [streamChunks, h]⟩
    | some r => exact ⟨r.bytes_received, by simp [streamChunks, h]⟩
  | cons chunk rest ih =>
    simp only [streamChunks]
    by_cases hm : (c + 1) % update_every = 0
    · rw [if_pos hm]
      obtain ⟨n, hn⟩ := ih (b + chunk.length) (c + 1)
        ((reg.update tid { bytes_received := some (b + chunk.length) }).2)
      refine ⟨n, ?_⟩
      rw [hn, get_update_self]
      cases h : reg.get tid <;> simp [h, applyPatch]
    · rw [if_neg hm]
      exact ih (b + chunk.length) (c + 1) reg

end MSTransfer

namespace MSTransfer

theorem fsRead_fsWrite_self (fs : Fs) (p : String) (v : List Nat) :
    fsRead (fsWrite fs p v) p = some v := by
  induction fs with
  | nil => simp [fsWrite, fsRead]
  | cons e rest ih =>
    by_cases hep : e.1 = p
    · simp [fsWrite, fsRead, hep]
    · by_cases hany : rest.any (fun q => q.1 = p)
      · simp only [fsWrite, List.any_cons, hany, Bool.or_true, if_pos,
          decide_eq_true_eq] at ih ⊢
        simp only [List.map_cons, if_neg hep, fsRead, List.find?]
        simpa [fsRead, hep] using ih
      · simp only [fsWrite, List.any_cons, hany, Bool.or_false,
          decide_eq_true_eq] at ih ⊢
        simp only [if_neg hep, if_false] at ih ⊢
        simp only [fsRead, List.cons_append, List.find?] at ih ⊢
        simpa [hep] using ih

theorem upload_msz_run (od : String) (dec : List Nat → Option (List Nat))
    (tid fn : String) (body : List (List Nat)) (reg : TransferRegistry)
    (fs : Fs) (now : Nat) (h1 : tid ≠ "") (h2 : fn ≠ "") :
    (upload od "msz" dec (some tid) (some fn) body reg fs now).outcome
        = .ok { transfer_id := tid, filename := fn,
                stored_as := stagingPath od fn, state := .done,
                bytes_received := (body.map List.length).sum }
      ∧ (upload od "msz" dec (some tid) (some fn) body reg fs now).registry.get tid
        = some { transfer_id := tid, filename := fn, state := .done,
                 bytes_received := (body.map List.length).sum,
                 stored_as := stagingPath od fn, error := none,
                 created_at := now }
      ∧ (upload od "msz" dec (some tid) (some fn) body reg fs now).fs
        = fsWrite fs (stagingPath od fn) body.flatten := by
  have hg1 := get_create reg tid fn now
  obtain ⟨n, hn⟩ := get_streamChunks_shape tid body 0 0 (reg.create tid fn now).2
  rw [hg1] at hn
  set reg1 := (reg.create tid fn now).2 with hreg1
  set streamed := streamChunks tid body 0 0 reg1 with hstreamed
  have htot : streamed.1 = (body.map List.length).sum := by
    rw [hstreamed, streamChunks_fst]; omega
  have h3 : ((streamed.2.update tid
      { bytes_received := some streamed.1 }).2).get tid
      = some { transfer_id := tid, filename := fn,
               state := .receiving,
               bytes_received := (body.map List.length).sum,
               stored_as := "", error := none, created_at := now } := by
    rw [get_update_self, hn, htot]
    simp [applyPatch]
  set reg3 := (streamed.2.update tid { bytes_received := some streamed.1 }).2
  have h4 : ((reg3.update tid { state := some .received }).2).get tid
      = some { transfer_id := tid, filename := fn,
               state := .received,
               bytes_received := (body.map List.length).sum,
               stored_as := "", error := none, created_at := now } := by
    rw [get_update_self, h3]
    simp [applyPatch]
  set reg4 := (reg3.update tid { state := some .received }).2
  have h5 : ((reg4.update tid
      { state := some .done, stored_as := some (stagingPath od fn),
        bytes_received := some streamed.1 }).2).get tid
      = some { transfer_id := tid, filename := fn, state := .done,
               bytes_received := (body.map List.length).sum,
               stored_as := stagingPath od fn, error := none,
               created_at := now } := by
    rw [get_update_self, h4, htot]
    simp [applyPatch]
  simp only [upload, h1, h2, if_neg, reduceIte, ← hreg1, ← hstreamed]
  rw [h5]
  exact ⟨rfl, h5, rfl⟩

end MSTransfer

namespace MSTransfer

theorem upload_mzml_run (od : String) (dec : List Nat → Option (List Nat))
    (tid fn : String) (body : List (List Nat)) (reg : TransferRegistry)
    (fs : Fs) (now : Nat) (h1 : tid ≠ "") (h2 : fn ≠ "") :
    (upload od "mzml" dec (some tid) (some fn) body reg fs now).outcome
      = match dec body.flatten with
        | some _ =>
            .ok { transfer_id := tid, filename := fn,
                  stored_as := od ++ "/" ++ (pathStem fn ++ ".mzML"),
                  state := .done,
                  bytes_received := (body.map List.length).sum }
        | none =>
            .ok { transfer_id := tid, filename := fn,
                  stored_as := "", state := .error,
                  bytes_received := (body.map List.length).sum } := by
  have hg1 := get_create reg tid fn now
  obtain ⟨n, hn⟩ := get_streamChunks_shape tid body 0 0 (reg.create tid fn now).2
  rw [hg1] at hn
  set reg1 := (reg.create tid fn now).2 with hreg1
  set streamed := streamChunks tid body 0 0 reg1 with hstreamed
  have htot : streamed.1 = (body.map List.length).sum := by
    rw [hstreamed, streamChunks_fst]; omega
  have h3 : ((streamed.2.update tid
      { bytes_received := some streamed.1 }).2).get tid
      = some { transfer_id := tid, filename := fn,
               state := .receiving,
               bytes_received := (body.map List.length).sum,
               stored_as := "", error := none, created_at := now } := by
    rw [get_update_self, hn, htot]
    simp [applyPatch]
  set reg3 := (streamed.2.update tid { bytes_received := some streamed.1 }).2
  have h4 : ((reg3.update tid { state := some .received }).2).get tid
      = some { transfer_id := tid, filename := fn,
               state := .received,
               bytes_received := (body.map List.length).sum,
               stored_as := "", error := none, created_at := now } := by
    rw [get_update_self, h3]
    simp [applyPatch]
  set reg4 := (reg3.update tid { state := some .received }).2
  have h5 : ((reg4.update tid { state := some .decompressing }).2).get tid
      = some { transfer_id := tid, filename := fn,
               state := .decompressing,
               bytes_received := (body.map List.length).sum,
               stored_as := "", error := none, created_at := now } := by
    rw [get_update_self, h4]
    simp [applyPatch]
  set reg5 := (reg4.update tid { state := some .decompressing }).2
  have hread : fsRead (fsWrite fs (stagingPath od fn) body.flatten)
      (stagingPath od fn) = some body.flatten := fsRead_fsWrite_self fs _ _
  cases hdec : dec body.flatten with
  | some out =>
    have h6 : ((reg5.update tid
        { state := some .done,
          stored_as := some (od ++ "/" ++ (pathStem fn ++ ".mzML")),
          bytes_received := some streamed.1 }).2).get tid
        = some { transfer_id := tid, filename := fn, state := .done,
                 bytes_received := (body.map List.length).sum,
                 stored_as := od ++ "/" ++ (pathStem fn ++ ".mzML"),
                 error := none, created_at := now } := by
      rw [get_update_self, h5, htot]
      simp [applyPatch]
    simp only [upload, h1, h2, reduceIte, String.reduceEq, ← hreg1,
      ← hstreamed]
    rw [hread]
    simp only [Option.getD_some]
    rw [hdec]
    simp only []
    rw [h6]
  | none =>
    have h6 : ((reg5.update tid
        { state := some .error,
          error := some (some "decompression failed") }).2).get tid
        = some { transfer_id := tid, filename := fn, state := .error,
                 bytes_received := (body.map List.length).sum,
                 stored_as := "", error := some "decompression failed",
                 created_at := now } := by
      rw [get_update_self, h5]
      simp [applyPatch]
    simp only [upload, h1, h2, reduceIte, String.reduceEq, ← hreg1,
      ← hstreamed]
    rw [hread]
    simp only [Option.getD_some]
    rw [hdec]
    simp only []
    rw [h6]

end MSTransfer

namespace MSTransfer

/-- The response carried by an upload outcome, when the handler returned
normally. -/
def UploadOutcome.response? : UploadOutcome → Option UploadResponse
  | .httpError _ _ => none
  | .ok r => some r

/-- Claim C1 counterexample: with a record for id `"t"` already in the
registry, `create("t", ...)` is not rejected — it silently replaces the
record, so the registry no longer holds the old record afterwards. -/
theorem c1_counterexample :
    ((⟨[("t", { transfer_id := "t", filename := "old.msz",
                state := TransferState.done, bytes_received := 7,
                created_at := 3 })]⟩ :
        TransferRegistry).create "t" "new.msz" 9).2.get "t"
      ≠ some { transfer_id := "t", filename := "old.msz",
               state := TransferState.done, bytes_received := 7,
               created_at := 3 } := by decide

/-- Claim C1 (amended): `create` never rejects a colliding id — it
unconditionally overwrites, leaving the registry mapping the id to the
fresh `receiving` record; and the upload endpoint never answers 409 for any
request (duplicate id included). -/
theorem c1_create_replaces :
    (∀ (reg : TransferRegistry) (tid fn : String) (now : Nat),
      ((reg.create tid fn now).2).get tid
        = some { transfer_id := tid, filename := fn, created_at := now })
    ∧ ∀ (od store : String) (dec : List Nat → Option (List Nat))
        (tidh fnh : Option String) (body : List (List Nat))
        (reg : TransferRegistry) (fs : Fs) (now : Nat),
        (upload od store dec tidh fnh body reg fs now).outcome.status ≠ 409 := by
  constructor
  · exact fun reg tid fn now => get_create reg tid fn now
  · intro od store dec tidh fnh body reg fs now
    simp only [upload]
    repeat' split
    all_goals simp [UploadOutcome.status]

/-- Claim C2 counterexample: with `out/a.msz` already on disk, an upload
staging to that very path is not rejected with 409 — it returns 200 and the
file's former contents `[9, 9, 9]` are replaced by the new body `[1, 2]`. -/
theorem c2_counterexample :
    (upload "out" "msz" (fun _ => none) (some "t") (some "a.msz") [[1, 2]]
        ⟨[]⟩ [("out/a.msz", [9, 9, 9])] 0).outcome.status = 200
    ∧ (upload "out" "msz" (fun _ => none) (some "t") (some "a.msz") [[1, 2]]
        ⟨[]⟩ [("out/a.msz", [9, 9, 9])] 0).fs = [("out/a.msz", [1, 2])] := by
  exact ⟨rfl, rfl⟩

/-- Claim C2 (amended): the server never checks whether the staging path
exists: for any prior filesystem contents it opens the staging path for
writing (truncating any existing file), answers 200, and afterwards the
staging file holds exactly the new body. -/
theorem c2_staging_overwrite (od : String)
    (dec : List Nat → Option (List Nat)) (tid fn : String)
    (body : List (List Nat)) (reg : TransferRegistry) (fs : Fs) (now : Nat)
    (h1 : tid ≠ "") (h2 : fn ≠ "") :
    (upload od "msz" dec (some tid) (some fn) body reg fs now).outcome.status
        = 200
    ∧ fsRead (upload od "msz" dec (some tid) (some fn) body reg fs now).fs
        (stagingPath od fn) = some body.flatten := by
  obtain ⟨hout, -, hfs⟩ := upload_msz_run od dec tid fn body reg fs now h1 h2
  refine ⟨?_, ?_⟩
  · rw [hout]
    rfl
  · rw [hfs]
    exact fsRead_fsWrite_self fs _ _

/-- Claim C2 witness: the amended behavior at a concrete pre-existing
staging file. -/
theorem c2_staging_overwrite_witness :
    ("t" : String) ≠ "" ∧ ("a.msz" : String) ≠ ""
    ∧ ((upload "out" "msz" (fun _ => none) (some "t") (some "a.msz") [[1, 2]]
          ⟨[]⟩ [("out/a.msz", [9, 9, 9])] 0).outcome.status = 200
      ∧ fsRead (upload "out" "msz" (fun _ => none) (some "t") (some "a.msz")
          [[1, 2]] ⟨[]⟩ [("out/a.msz", [9, 9, 9])] 0).fs
          (stagingPath "out" "a.msz") = some ([[1, 2]] : List (List Nat)).flatten) :=
  ⟨by decide, by decide,
    c2_staging_overwrite "out" (fun _ => none) "t" "a.msz" [[1, 2]] ⟨[]⟩
      [("out/a.msz", [9, 9, 9])] 0 (by decide) (by decide)⟩

/-- Claim C3 counterexample: a record in terminal state `done` is mutated
by a subsequent `update` — the state moves back to `receiving`, so `update`
is not a no-op on terminal records. -/
theorem c3_counterexample :
    ((⟨[("t", { transfer_id := "t", filename := "f.msz",
                state := TransferState.done, bytes_received := 5,
                stored_as := "out/f.msz", created_at := 0 })]⟩ :
        TransferRegistry).update "t"
        { state := some TransferState.receiving }).2.get "t"
      = some { transfer_id := "t", filename := "f.msz",
               state := TransferState.receiving, bytes_received := 5,
               stored_as := "out/f.msz", created_at := 0 } := by decide

/-- Claim C3 (amended): `update` never inspects the current state: whenever
the id is present, every given field mutation is applied and the mutated
record is returned, including transitions out of `done` and `error`. -/
theorem c3_update_unconditional (reg : TransferRegistry) (tid : String)
    (p : RecordPatch) (r : TransferRecord) (h : reg.get tid = some r) :
    ((reg.update tid p).2).get tid = some (applyPatch r p)
    ∧ (reg.update tid p).1 = some (applyPatch r p) := by
  rw [get_update_self, fst_update, h]
  exact ⟨rfl, rfl⟩

/-- Claim C3 witness: the amended behavior at a concrete terminal record. -/
theorem c3_update_unconditional_witness :
    (⟨[("t", { transfer_id := "t", filename := "f.msz",
               state := TransferState.done, bytes_received := 5,
               stored_as := "out/f.msz", created_at := 0 })]⟩ :
        TransferRegistry).get "t"
      = some { transfer_id := "t", filename := "f.msz",
               state := TransferState.done, bytes_received := 5,
               stored_as := "out/f.msz", created_at := 0 }
    ∧ (((⟨[("t", { transfer_id := "t", filename := "f.msz",
                   state := TransferState.done, bytes_received := 5,
                   stored_as := "out/f.msz", created_at := 0 })]⟩ :
          TransferRegistry).update "t"
          { state := some TransferState.receiving }).2.get "t"
        = some (applyPatch
            { transfer_id := "t", filename := "f.msz",
              state := TransferState.done, bytes_received := 5,
              stored_as := "out/f.msz", created_at := 0 }
            { state := some TransferState.receiving })
      ∧ ((⟨[("t", { transfer_id := "t", filename := "f.msz",
                    state := TransferState.done, bytes_received := 5,
                    stored_as := "out/f.msz", created_at := 0 })]⟩ :
          TransferRegistry).update "t"
          { state := some TransferState.receiving }).1
        = some (applyPatch
            { transfer_id := "t", filename := "f.msz",
              state := TransferState.done, bytes_received := 5,
              stored_as := "out/f.msz", created_at := 0 }
            { state := some TransferState.receiving })) :=
  ⟨by decide,
    c3_update_unconditional _ "t" _ _ (by decide)⟩

/-- Claim C4 counterexample: a completed upload whose decompression step
fails (final state `error`) still receives HTTP status 200, refuting
"status 200 iff final state is done or decompressing". -/
theorem c4_counterexample :
    (upload "out" "mzml" (fun _ => none) (some "t") (some "a.msz") [[1]]
        ⟨[]⟩ [] 0).outcome.status = 200
    ∧ ((upload "out" "mzml" (fun _ => none) (some "t") (some "a.msz") [[1]]
        ⟨[]⟩ [] 0).outcome.response?.map (fun r => r.state))
      = some TransferState.error := by
  exact ⟨rfl, rfl⟩

/-- Claim C4 (amended): on an `store_as=mzml` server, every completed
upload with valid headers is answered with HTTP 200 regardless of its final
state; when the decompression step fails the response still has status 200
and reports state `error`. -/
theorem c4_status_200_despite_error (od : String)
    (dec : List Nat → Option (List Nat)) (tid fn : String)
    (body : List (List Nat)) (reg : TransferRegistry) (fs : Fs) (now : Nat)
    (h1 : tid ≠ "") (h2 : fn ≠ "") :
    (upload od "mzml" dec (some tid) (some fn) body reg fs now).outcome.status
        = 200
    ∧ (dec body.flatten = none →
        ((upload od "mzml" dec (some tid) (some fn) body reg fs
            now).outcome.response?.map (fun r => r.state))
          = some TransferState.error) := by
  have h := upload_mzml_run od dec tid fn body reg fs now h1 h2
  cases hdec : dec body.flatten with
  | some out =>
    rw [hdec] at h
    rw [h]
    exact ⟨rfl, fun hc => nomatch hc⟩
  | none =>
    rw [hdec] at h
    rw [h]
    exact ⟨rfl, fun _ => rfl⟩

/-- Claim C4 witness: the amended behavior at a concrete failing
decompression. -/
theorem c4_status_200_despite_error_witness :
    ("t" : String) ≠ "" ∧ ("a.msz" : String) ≠ ""
    ∧ ((upload "out" "mzml" (fun _ => none) (some "t") (some "a.msz") [[7]]
          ⟨[]⟩ [] 0).outcome.status = 200
      ∧ ((fun _ => (none : Option (List Nat))) ([[7]] : List (List Nat)).flatten
            = none →
          ((upload "out" "mzml" (fun _ => none) (some "t") (some "a.msz")
              [[7]] ⟨[]⟩ [] 0).outcome.response?.map (fun r => r.state))
            = some TransferState.error)) :=
  ⟨by decide, by decide,
    c4_status_200_despite_error "out" (fun _ => none) "t" "a.msz" [[7]] ⟨[]⟩
      [] 0 (by decide) (by decide)⟩

end MSTransfer

namespace MSTransfer

theorem not_mem_splitSlash (cs : List Char) (comp : List Char)
    (h : comp ∈ splitSlash cs) : '/' ∉ comp := by
  induction cs generalizing comp with
  | nil =>
    simp only [splitSlash, List.mem_singleton] at h
    subst h
    simp
  | cons c rest ih =>
    by_cases hc : c = '/'
    · simp only [splitSlash, if_pos hc, List.mem_cons] at h
      rcases h with h | h
      · subst h; simp
      · exact ih comp h
    · simp only [splitSlash, if_neg hc] at h
      cases hsp : splitSlash rest with
      | nil =>
        rw [hsp] at h
        simp only [List.mem_singleton] at h
        subst h
        intro hmem
        simp only [List.mem_singleton] at hmem
        exact hc hmem.symm
      | cons s ss =>
        rw [hsp] at h
        simp only [List.mem_cons] at h
        rcases h with h | h
        · subst h
          intro hmem
          rcases List.mem_cons.mp hmem with h' | h'
          · exact hc h'.symm
          · exact ih s (hsp ▸ List.mem_cons_self s ss) h'
        · exact ih comp (hsp ▸ List.mem_cons_of_mem s h)

theorem no_slash_pathNameChars (cs : List Char) : '/' ∉ pathNameChars cs := by
  simp only [pathNameChars]
  cases hl : ((splitSlash cs).filter keepComponent).getLast? with
  | none => simp only [hl, Option.getD_none, List.not_mem_nil, not_false_iff]
  | some comp =>
    simp only [hl, Option.getD_some]
    have hmem := List.mem_of_mem_getLast? hl
    exact not_mem_splitSlash cs comp (List.mem_filter.mp hmem).1

theorem no_slash_pathStemChars (cs : List Char) : '/' ∉ pathStemChars cs := by
  simp only [pathStemChars]
  have hname := no_slash_pathNameChars cs
  cases hfind : rfindIdx '.' (pathNameChars cs) with
  | none =>
    simp only [hfind]
    exact hname
  | some i =>
    simp only [hfind]
    by_cases hcond : 0 < i ∧ i < (pathNameChars cs).length - 1
    · rw [if_pos hcond]
      intro hmem
      exact hname (List.take_subset i _ hmem)
    · rw [if_neg hcond]
      exact hname

/-- Claim C9: the staging path is always `output_dir` joined with the one
filename component `stem + ".msz"`: the stem comes from the last path
component of `X-Original-Filename`, so it contains no `/`, and the final
component is never `.` or `..` — no header value (e.g. one with `../`
segments) can place the staging file outside the output directory. -/
theorem c9_no_path_traversal (output_dir original_filename : String) :
    stagingPath output_dir original_filename
      = output_dir ++ "/" ++ (pathStem original_filename ++ ".msz")
    ∧ '/' ∉ (pathStem original_filename ++ ".msz").data
    ∧ (pathStem original_filename ++ ".msz") ≠ "."
    ∧ (pathStem original_filename ++ ".msz") ≠ ".." := by
  refine ⟨rfl, ?_, ?_, ?_⟩
  · rw [String.data_append]
    intro hmem
    rcases List.mem_append.mp hmem with h | h
    · exact no_slash_pathStemChars original_filename.data h
    · revert h
      decide
  · intro h
    have hd := congrArg String.data h
    rw [String.data_append] at hd
    have hlen := congrArg List.length hd
    rw [List.length_append] at hlen
    simp at hlen
  · intro h
    have hd := congrArg String.data h
    rw [String.data_append] at hd
    have hlen := congrArg List.length hd
    rw [List.length_append] at hlen
    simp at hlen

/-- Claim C8: on an `store_as=msz` server, a completed upload with valid
headers and a fresh id reports `bytes_received` equal to the body length —
in the upload response and on any subsequent status GET — with final state
`done`; the empty body is accepted the same way (`bytes_received = 0`). -/
theorem c8_bytes_received_exact (od : String)
    (dec : List Nat → Option (List Nat)) (tid fn : String)
    (body : List (List Nat)) (reg : TransferRegistry) (fs : Fs) (now : Nat)
    (hfresh : reg.get tid = none) (h1 : tid ≠ "") (h2 : fn ≠ "") :
    ((upload od "msz" dec (some tid) (some fn) body reg fs
        now).outcome.response?.map (fun r => r.bytes_received))
      = some body.flatten.length
    ∧ ((upload od "msz" dec (some tid) (some fn) body reg fs
        now).outcome.response?.map (fun r => r.state))
      = some TransferState.done
    ∧ ((transfer_status (upload od "msz" dec (some tid) (some fn) body reg
        fs now).registry tid).map (fun r => r.bytes_received))
      = some body.flatten.length
    ∧ ((transfer_status (upload od "msz" dec (some tid) (some fn) body reg
        fs now).registry tid).map (fun r => r.state))
      = some TransferState.done := by
  obtain ⟨hout, hget, -⟩ := upload_msz_run od dec tid fn body reg fs now h1 h2
  have hlen : body.flatten.length = (body.map List.length).sum :=
    List.length_flatten body
  rw [hout, hlen]
  simp only [transfer_status]
  rw [hget]
  exact ⟨rfl, rfl, rfl, rfl⟩

/-- Claim C8 witness: the empty body at concrete arguments — accepted,
state `done`, `bytes_received = 0` in response and status GET. -/
theorem c8_bytes_received_exact_witness :
    (⟨[]⟩ : TransferRegistry).get "t" = none
    ∧ ("t" : String) ≠ "" ∧ ("a.msz" : String) ≠ ""
    ∧ (((upload "out" "msz" (fun _ => none) (some "t") (some "a.msz") []
          ⟨[]⟩ [] 0).outcome.response?.map (fun r => r.bytes_received))
        = some ([] : List (List Nat)).flatten.length
      ∧ ((upload "out" "msz" (fun _ => none) (some "t") (some "a.msz") []
          ⟨[]⟩ [] 0).outcome.response?.map (fun r => r.state))
        = some TransferState.done
      ∧ ((transfer_status (upload "out" "msz" (fun _ => none) (some "t")
          (some "a.msz") [] ⟨[]⟩ [] 0).registry "t").map
            (fun r => r.bytes_received))
        = some ([] : List (List Nat)).flatten.length
      ∧ ((transfer_status (upload "out" "msz" (fun _ => none) (some "t")
          (some "a.msz") [] ⟨[]⟩ [] 0).registry "t").map (fun r => r.state))
        = some TransferState.done) :=
  ⟨by decide, by decide, by decide,
    c8_bytes_received_exact "out" (fun _ => none) "t" "a.msz" [] ⟨[]⟩ [] 0
      (by decide) (by decide) (by decide)⟩

/-- Claim C10: `send_batch` on an empty input list computes
`workers = min(parallel, 0) = 0`, and `ThreadPoolExecutor` rejects a
non-positive `max_workers` — the call raises instead of returning `[]`. -/
theorem c10_empty_batch (outcomes : List (Except String UploadResponse))
    (completion_order : List Nat) (parallel : Nat) :
    send_batch [] outcomes completion_order parallel
      = .error "max_workers must be greater than 0" := by
  simp [send_batch]

end MSTransfer

namespace MSTransfer

theorem filterMap_fileResultAt (file_paths : List String)
    (outcomes : List (Except String UploadResponse))
    (hlen : outcomes.length = file_paths.length) :
    ∀ order : List Nat, (∀ i ∈ order, i < file_paths.length) →
      (order.filterMap (fileResultAt file_paths outcomes)).length
          = order.length
      ∧ (order.filterMap (fileResultAt file_paths outcomes)).map
            (fun r => r.filename)
          = order.map (fun i => pathName (file_paths.getD i "")) := by
  intro order
  induction order with
  | nil => intro _; exact ⟨rfl, rfl⟩
  | cons i rest ih =>
    intro hbound
    have hi : i < file_paths.length := hbound i (List.mem_cons_self i rest)
    have hio : i < outcomes.length := by omega
    have hrest := ih (fun j hj => hbound j (List.mem_cons_of_mem i hj))
    have hp : file_paths[i]? = some file_paths[i] :=
      (List.getElem?_eq_some_getElem_iff file_paths i hi).mpr trivial
    have ho : outcomes[i]? = some outcomes[i] :=
      (List.getElem?_eq_some_getElem_iff outcomes i hio).mpr trivial
    have hgetD : file_paths.getD i "" = file_paths[i] :=
      List.getD_eq_getElem file_paths "" hi
    have hsome : fileResultAt file_paths outcomes i
        = some (match outcomes[i] with
          | .ok r => { filename := pathName file_paths[i], response := some r }
          | .error e =>
              { filename := pathName file_paths[i], error := some e }) := by
      unfold fileResultAt
      rw [hp, ho]
      cases outcomes[i] <;> rfl
    constructor
    · rw [List.filterMap_cons, hsome]
      simpa using hrest.1
    · rw [List.filterMap_cons, hsome, List.map_cons, List.map_cons, hgetD]
      rw [hrest.2]
      cases outcomes[i] <;> rfl

theorem map_getD_range (l : List String) :
    (List.range l.length).map (fun i => pathName (l.getD i ""))
      = l.map pathName := by
  induction l with
  | nil => rfl
  | cons a rest ih =>
    rw [List.length_cons, List.range_succ_eq_map, List.map_cons,
      List.map_map, List.map_cons]
    refine congrArg (_ :: ·) ?_
    have hfun : ((fun i => pathName ((a :: rest).getD i "")) ∘ Nat.succ)
        = (fun i => pathName (rest.getD i "")) := by
      funext i
      rfl
    rw [hfun, ih]

/-- Claim C5 counterexample: a two-file batch whose second upload completes
first yields results in completion order — the `FileResult` at position 0
carries the basename of input 1, not of input 0. -/
theorem c5_counterexample :
    ((send_batch ["a.msz", "b.msz"]
        [Except.ok { transfer_id := "t1", filename := "a.msz",
                     stored_as := "s", state := TransferState.done,
                     bytes_received := 1 },
         Except.ok { transfer_id := "t2", filename := "b.msz",
                     stored_as := "s", state := TransferState.done,
                     bytes_received := 1 }]
        [1, 0] 4).toOption.map (fun l => l.map (fun r => r.filename)))
      = some ["b.msz", "a.msz"]
    ∧ ("b.msz" : String) ≠ "a.msz" := by decide

/-- Claim C5 (amended): a batch over N inputs returns exactly N
`FileResult`s, whose multiset of filenames is exactly the inputs' basenames
— but in completion order, not input order; positional alignment holds only
when the futures complete in input order. -/
theorem c5_batch_results (file_paths : List String)
    (outcomes : List (Except String UploadResponse))
    (completion_order : List Nat) (parallel : Nat)
    (hperm : completion_order.Perm (List.range file_paths.length))
    (hlen : outcomes.length = file_paths.length)
    (hw : min parallel file_paths.length ≠ 0) :
    ∃ results,
      send_batch file_paths outcomes completion_order parallel = .ok results
      ∧ results.length = file_paths.length
      ∧ (results.map (fun r => r.filename)).Perm (file_paths.map pathName)
      ∧ (completion_order = List.range file_paths.length →
          results.map (fun r => r.filename) = file_paths.map pathName) := by
  have hbound : ∀ i ∈ completion_order, i < file_paths.length := by
    intro i hi
    have : i ∈ List.range file_paths.length := hperm.mem_iff.mp hi
    exact List.mem_range.mp this
  obtain ⟨hlen', hmap⟩ :=
    filterMap_fileResultAt file_paths outcomes hlen completion_order hbound
  refine ⟨completion_order.filterMap (fileResultAt file_paths outcomes),
    ?_, ?_, ?_, ?_⟩
  · simp only [send_batch, if_neg hw]
  · rw [hlen', hperm.length_eq, List.length_range]
  · rw [hmap]
    have hp := hperm.map (fun i => pathName (file_paths.getD i ""))
    rw [map_getD_range] at hp
    exact hp
  · intro horder
    rw [hmap, horder, map_getD_range]

/-- Claim C5 witness: the amended statement at a concrete two-file batch
with reversed completion order. -/
theorem c5_batch_results_witness :
    ([1, 0] : List Nat).Perm
        (List.range (["a.msz", "b.msz"] : List String).length)
    ∧ ([Except.ok { transfer_id := "t1", filename := "a.msz",
                    stored_as := "s", state := TransferState.done,
                    bytes_received := 1 },
        Except.ok { transfer_id := "t2", filename := "b.msz",
                    stored_as := "s", state := TransferState.done,
                    bytes_received := 1 }] :
        List (Except String UploadResponse)).length
      = (["a.msz", "b.msz"] : List String).length
    ∧ min 4 (["a.msz", "b.msz"] : List String).length ≠ 0
    ∧ ∃ results,
        send_batch ["a.msz", "b.msz"]
          [Except.ok { transfer_id := "t1", filename := "a.msz",
                       stored_as := "s", state := TransferState.done,
                       bytes_received := 1 },
           Except.ok { transfer_id := "t2", filename := "b.msz",
                       stored_as := "s", state := TransferState.done,
                       bytes_received := 1 }]
          [1, 0] 4 = .ok results
        ∧ results.length = (["a.msz", "b.msz"] : List String).length
        ∧ (results.map (fun r => r.filename)).Perm
            ((["a.msz", "b.msz"] : List String).map pathName)
        ∧ ([1, 0] = List.range (["a.msz", "b.msz"] : List String).length →
            results.map (fun r => r.filename)
              = (["a.msz", "b.msz"] : List String).map pathName) :=
  ⟨by decide, by decide, by decide,
    c5_batch_results ["a.msz", "b.msz"]
      [Except.ok { transfer_id := "t1", filename := "a.msz",
                   stored_as := "s", state := TransferState.done,
                   bytes_received := 1 },
       Except.ok { transfer_id := "t2", filename := "b.msz",
                   stored_as := "s", state := TransferState.done,
                   bytes_received := 1 }]
      [1, 0] 4 (by decide) (by decide) (by decide)⟩

end MSTransfer

namespace MSTransfer

theorem obsBytes_cons (o : PollObs) (rest : List PollObs) :
    obsBytes (o :: rest)
      = match o.resp with
        | none => obsBytes rest
        | some r => r.2 :: obsBytes rest := by
  unfold obsBytes
  cases hresp : o.resp <;> simp [List.filterMap_cons, hresp]

theorem pollLoop_eq_claimPollLoop (T : Nat) :
    ∀ (trace : List PollObs) (deadline : Nat) (ls : Option TransferState)
      (lb : Nat), nondecreasing (lb :: obsBytes trace) = true →
      pollLoop T trace deadline ls lb = claimPollLoop T trace deadline ls lb := by
  intro trace
  induction trace with
  | nil => intro _ _ _ _; rfl
  | cons o rest ih =>
    intro deadline ls lb hmono
    rw [obsBytes_cons] at hmono
    by_cases htime : o.time < deadline
    · cases hresp : o.resp with
      | none =>
        rw [hresp] at hmono
        simp only [pollLoop, claimPollLoop, if_pos htime, hresp]
        exact ih deadline ls lb hmono
      | some sb =>
        obtain ⟨s, b⟩ := sb
        rw [hresp] at hmono
        have hmono' : (decide (lb ≤ b)
            && nondecreasing (b :: obsBytes rest)) = true := hmono
        rw [Bool.and_eq_true, decide_eq_true_eq] at hmono'
        obtain ⟨hlb, hrest⟩ := hmono'
        simp only [pollLoop, claimPollLoop, if_pos htime, hresp]
        by_cases hterm : s = TransferState.done ∨ s = TransferState.error
        · rw [if_pos hterm, if_pos hterm]
        · rw [if_neg hterm, if_neg hterm]
          by_cases hprog : some s ≠ ls ∨ b > lb
          · rw [if_pos hprog, if_pos hprog]
            exact ih (o.time + T) (some s) b hrest
          · rw [if_neg hprog, if_neg hprog]
            push_neg at hprog
            obtain ⟨hs, hble⟩ := hprog
            have hb : b = lb := Nat.le_antisymm hble hlb
            rw [← hs, ← hb]
            exact ih deadline (some s) b hrest
    · simp only [pollLoop, claimPollLoop, if_neg htime]

/-- Claim C6: provided the observed `bytes_received` values never decrease
(the server-side monotonicity invariant), the code's poller behaves exactly
as the claim describes, i.e. it coincides with `claimPoll`, the poller
transcribed from the claim's words: a `done`/`error` observation returns
that state; an observation whose state differs from the last observed state
or whose byte count exceeds the last observed count resets the deadline to
`now + T`; and a timeout is raised exactly when a poll cycle starts `T` or
more after the last progress (or the start). -/
theorem c6_poll_progress_semantics (T t0 : Nat) (trace : List PollObs)
    (hmono : nondecreasing (obsBytes trace) = true) :
    poll_status T t0 trace = claimPoll T t0 trace := by
  have h0 : nondecreasing (0 :: obsBytes trace) = true := by
    cases hob : obsBytes trace with
    | nil => rfl
    | cons a l =>
      rw [hob] at hmono
      show (decide (0 ≤ a) && nondecreasing (a :: l)) = true
      rw [hmono]
      simp
  exact pollLoop_eq_claimPollLoop T trace (t0 + T) none 0 h0

/-- Claim C6 witness: the equivalence at a concrete progressing trace. -/
theorem c6_poll_progress_semantics_witness :
    nondecreasing (obsBytes
        [⟨1, some (TransferState.receiving, 0)⟩,
         ⟨2, some (TransferState.receiving, 5)⟩,
         ⟨9, some (TransferState.done, 5)⟩]) = true
    ∧ poll_status 10 0
        [⟨1, some (TransferState.receiving, 0)⟩,
         ⟨2, some (TransferState.receiving, 5)⟩,
         ⟨9, some (TransferState.done, 5)⟩]
      = claimPoll 10 0
        [⟨1, some (TransferState.receiving, 0)⟩,
         ⟨2, some (TransferState.receiving, 5)⟩,
         ⟨9, some (TransferState.done, 5)⟩] :=
  ⟨by decide,
    c6_poll_progress_semantics 10 0
      [⟨1, some (TransferState.receiving, 0)⟩,
       ⟨2, some (TransferState.receiving, 5)⟩,
       ⟨9, some (TransferState.done, 5)⟩] (by decide)⟩

end MSTransfer

namespace MSTransfer

theorem mem_sortedSet (l : List String) (p : String) :
    p ∈ sortedSet l ↔ p ∈ l := by
  unfold sortedSet
  rw [List.mem_dedup]
  exact (List.mergeSort_perm l _).mem_iff

theorem mem_dedupKeepFirstAux (p : String) :
    ∀ (l seen : List String),
      p ∈ dedupKeepFirstAux seen l ↔ p ∈ l ∧ p ∉ seen := by
  intro l
  induction l with
  | nil => intro seen; simp [dedupKeepFirstAux]
  | cons a rest ih =>
    intro seen
    simp only [dedupKeepFirstAux]
    by_cases hc : seen.contains a = true
    · rw [if_pos hc, ih, List.mem_cons]
      have ha : a ∈ seen := List.elem_iff.mp hc
      constructor
      · rintro ⟨hr, hns⟩
        exact ⟨Or.inr hr, hns⟩
      · rintro ⟨he | hr, hns⟩
        · subst he; exact absurd ha hns
        · exact ⟨hr, hns⟩
    · rw [if_neg hc]
      simp only [List.mem_cons, ih]
      have ha : a ∉ seen := fun hmem => hc (List.elem_iff.mpr hmem)
      constructor
      · rintro (he | ⟨hr, hns⟩)
        · subst he; exact ⟨Or.inl rfl, ha⟩
        · simp only [not_or] at hns
          exact ⟨Or.inr hr, hns.2⟩
      · rintro ⟨he | hr, hns⟩
        · exact Or.inl he
        · by_cases hpa : p = a
          · exact Or.inl hpa
          · exact Or.inr ⟨hr, by simp [not_or, hpa, hns]⟩

theorem mem_dedupKeepFirst (l : List String) (p : String) :
    p ∈ dedupKeepFirst l ↔ p ∈ l := by
  unfold dedupKeepFirst
  rw [mem_dedupKeepFirstAux]
  simp

theorem mem_globDir (cfs : ClientFs) (d suffix p : String) :
    p ∈ globDir cfs d suffix ↔
      (∃ e ∈ cfs, e.path = p) ∧ dirname p = d
        ∧ fnmatchStar suffix (pathName p) = true := by
  unfold globDir
  rw [List.mem_filterMap]
  constructor
  · rintro ⟨e, he, hsome⟩
    by_cases hcond : dirname e.path = d ∧ fnmatchStar suffix (pathName e.path) = true
    · rw [if_pos hcond] at hsome
      obtain rfl : e.path = p := Option.some_injective _ hsome
      exact ⟨⟨e, he, rfl⟩, hcond.1, hcond.2⟩
    · rw [if_neg hcond] at hsome
      cases hsome
  · rintro ⟨⟨e, he, hp⟩, hdir, hmatch⟩
    refine ⟨e, he, ?_⟩
    rw [hp, if_pos ⟨hdir, hmatch⟩]
  
theorem mem_rglobDir (cfs : ClientFs) (d suffix p : String) :
    p ∈ rglobDir cfs d suffix ↔
      (∃ e ∈ cfs, e.path = p) ∧ (d ++ "/").data.isPrefixOf p.data = true
        ∧ fnmatchStar suffix (pathName p) = true := by
  unfold rglobDir
  rw [List.mem_filterMap]
  constructor
  · rintro ⟨e, he, hsome⟩
    by_cases hcond : (d ++ "/").data.isPrefixOf e.path.data = true
        ∧ fnmatchStar suffix (pathName e.path) = true
    · rw [if_pos hcond] at hsome
      obtain rfl : e.path = p := Option.some_injective _ hsome
      exact ⟨⟨e, he, rfl⟩, hcond.1, hcond.2⟩
    · rw [if_neg hcond] at hsome
      cases hsome
  · rintro ⟨⟨e, he, hp⟩, hpre, hmatch⟩
    refine ⟨e, he, ?_⟩
    rw [hp, if_pos ⟨hpre, hmatch⟩]

end MSTransfer

namespace MSTransfer

/-- The error message of a resolver outcome, when it raised. -/
def resolveErrorMsg (r : Except String (List String)) : Option String :=
  match r with
  | .error e => some e
  | .ok _ => none

/-- Claim C7 counterexample: a directory containing only `x.mszx` — whose
extension is in the supported case-insensitive set — yields no eligible
input at all: the directory scan's glob patterns omit `*.mszx`, so the
resolver raises "no valid files". -/
theorem c7_counterexample :
    resolveErrorMsg
        (resolve_inputs [⟨"d", true⟩, ⟨"d/x.mszx", false⟩] ["d"] false)
      = some "No valid .mzML or .msz files found in the given paths"
    ∧ strLower (pathSuffix "d/x.mszx") ∈ VALID_EXTENSIONS := by decide

/-- Claim C7 (amended): a directory argument contributes exactly the
entries in (or, when recursive, strictly below) the directory whose name
matches one of the four case-sensitive glob patterns `*.mzML`, `*.msz`,
`*.mzml`, `*.MSZ` — so `.mszx` entries and case variants such as `.MZML`
inside directories are excluded (directly named files keep the full
case-insensitive set including `.mszx`). -/
theorem c7_dir_enumeration (cfs : ClientFs) (d : String) (recursive : Bool)
    (p : String) (hfile : cfs.isFile d = false) (hdir : cfs.isDir d = true) :
    p ∈ resolvedFiles (resolve_inputs cfs [d] recursive)
      ↔ ((∃ e ∈ cfs, e.path = p)
          ∧ (if recursive then (d ++ "/").data.isPrefixOf p.data = true
             else dirname p = d)
          ∧ (fnmatchStar ".mzML" (pathName p) = true
              ∨ fnmatchStar ".msz" (pathName p) = true
              ∨ fnmatchStar ".mzml" (pathName p) = true
              ∨ fnmatchStar ".MSZ" (pathName p) = true)) := by
  have hloop : resolveLoop cfs recursive [d] []
      = dedupKeepFirst (GLOB_PATTERNS.foldl
          (fun acc suffix => acc ++
            (if recursive then rglobDir cfs d suffix
             else globDir cfs d suffix)) []) := by
    simp [resolveLoop, hfile, hdir]
  have hmem : p ∈ resolvedFiles (resolve_inputs cfs [d] recursive)
      ↔ p ∈ resolveLoop cfs recursive [d] [] := by
    unfold resolve_inputs resolvedFiles
    by_cases hempty : resolveLoop cfs recursive [d] [] = []
    · simp [hempty, Except.toOption]
    · simp [hempty, Except.toOption, mem_sortedSet]
  rw [hmem, hloop, mem_dedupKeepFirst]
  simp only [GLOB_PATTERNS, List.foldl_cons, List.foldl_nil,
    List.nil_append]
  cases recursive with
  | false =>
    simp only [Bool.false_eq_true, if_false, List.mem_append, mem_globDir]
    simp only [and_or_left, or_assoc]
  | true =>
    simp only [reduceIte, List.mem_append, mem_rglobDir]
    simp only [and_or_left, or_assoc]

/-- Claim C7 witness: the amended characterization at a concrete directory
holding `x.mszx` and `y.msz`: `y.msz` is included, `x.mszx` is not. -/
theorem c7_dir_enumeration_witness :
    ClientFs.isFile [⟨"d", true⟩, ⟨"d/x.mszx", false⟩, ⟨"d/y.msz", false⟩]
        "d" = false
    ∧ ClientFs.isDir [⟨"d", true⟩, ⟨"d/x.mszx", false⟩, ⟨"d/y.msz", false⟩]
        "d" = true
    ∧ ("d/y.msz" ∈ resolvedFiles (resolve_inputs
          [⟨"d", true⟩, ⟨"d/x.mszx", false⟩, ⟨"d/y.msz", false⟩] ["d"] false)
        ↔ ((∃ e ∈ ([⟨"d", true⟩, ⟨"d/x.mszx", false⟩,
                    ⟨"d/y.msz", false⟩] : ClientFs), e.path = "d/y.msz")
            ∧ (if false then
                  ("d" ++ "/").data.isPrefixOf ("d/y.msz" : String).data
                    = true
               else dirname "d/y.msz" = "d")
            ∧ (fnmatchStar ".mzML" (pathName "d/y.msz") = true
                ∨ fnmatchStar ".msz" (pathName "d/y.msz") = true
                ∨ fnmatchStar ".mzml" (pathName "d/y.msz") = true
                ∨ fnmatchStar ".MSZ" (pathName "d/y.msz") = true))) :=
  ⟨by decide, by decide,
    c7_dir_enumeration [⟨"d", true⟩, ⟨"d/x.mszx", false⟩,
      ⟨"d/y.msz", false⟩] "d" false "d/y.msz" (by decide) (by decide)⟩

end MSTransfer
